import Mathlib

/-!
Verification of the smart-robotic-arm backend (Backend python/main.py and
Backend python/vision_tracking.py) against its natural-language design
specification.

Shallow embedding conventions:
* Python floats are modelled as exact rationals (`ℚ`); the concrete
  distances compared in the closest-object scan tie exactly in IEEE double
  arithmetic as well, so the rational model agrees with the code on every
  input exercised here.
* The Euclidean-distance comparison `sqrt a < sqrt b` in
  `find_closest_object` is modelled by the squared-distance comparison
  `a < b`, which is equivalent because `sqrt` is strictly monotone on
  nonnegative arguments; the initial `min_distance = float(\x7binf\x7d)` is
  modelled by an `Option` accumulator whose `none` state loses every
  comparison, matching that every finite distance is `< inf`.
* The MQTT client field (`self.mqtt_client`, `None` until initialised) is
  modelled by a `Bool` flag `clientInit`; a `publish(topic, text)` call is
  recorded in a returned list of `(topic, text)` pairs.
* JSON payloads (Python dicts produced by `json.loads`) are modelled as
  association lists with first-key-wins lookup, mirroring `dict.get`.
-/

namespace SmartArm

/-- One entry of the `last_detection` record built by
`SmartArmBackend.on_vision_detection` (main.py:212-216): an ISO timestamp,
a count, and the detection objects (kept abstract here as their ids). -/
structure LastDetection where
  timestamp : String
  count : Nat
  objects : List Nat
  deriving DecidableEq, Repr

/-- The `self.system_status` dict of `SmartArmBackend.__init__`
(main.py:30-40), one Lean field per dict key. -/
structure SystemStatus where
  mode : String
  vision_active : Bool
  mqtt_connected : Bool
  last_detection : Option LastDetection
  servo_angles : List Int
  distance_cm : ℚ
  motor_speed : Int
  grab_count : Nat
  error_message : String
  deriving DecidableEq, Repr

/-- The initial value assigned to `self.system_status` (main.py:30-40). -/
def initStatus : SystemStatus :=
  { mode := "auto"
    vision_active := false
    mqtt_connected := false
    last_detection := none
    servo_angles := [90, 90, 90, 90, 90]
    distance_cm := 0
    motor_speed := 0
    grab_count := 0
    error_message := "" }

/-- JSON values as far as the status-message handler can observe them:
integers, non-integer numbers, arrays of integers, strings.  Fields the
handler never reads may hold any of these. -/
inductive JVal where
  | jint (n : Int)
  | jnum (q : ℚ)
  | jarr (l : List Int)
  | jstr (s : String)
  deriving DecidableEq, Repr

/-- A decoded JSON object: association list of key/value pairs. -/
abbrev Payload := List (String × JVal)

/-- `payload.get(k)` without default: first binding of `k`, if any.
Python dict keys are unique, so first-key-wins lookup is exact. -/
def pget : Payload → String → Option JVal
  | [], _ => none
  | (k1, v) :: rest, k => if k1 = k then some v else pget rest k

/-- The `smartarm/status` branch of `SmartArmBackend.on_mqtt_message`
(main.py:191-197): `self.system_status.update` with
`payload.get('servos', [90]*5)`, `payload.get('distance', 0.0)`,
`payload.get('motor_speed', 0)`.  A present key of the wire-shape type is
taken verbatim; an absent key yields the hard-coded default. -/
def on_mqtt_message (p : Payload) (st : SystemStatus) : SystemStatus :=
  { st with
    servo_angles :=
      match pget p "servos" with
      | some (JVal.jarr l) => l
      | _ => [90, 90, 90, 90, 90]
    distance_cm :=
      match pget p "distance" with
      | some (JVal.jnum q) => q
      | some (JVal.jint n) => (n : ℚ)
      | _ => 0
    motor_speed :=
      match pget p "motor_speed" with
      | some (JVal.jint n) => n
      | _ => 0 }

/-- One detection dict built by `VisionTracker._process_detections`
(vision_tracking.py:142-152).  `relative_position` is the two-element list
`[rel_x, rel_y]`, destructured by `find_closest_object`, so it is a pair
here. -/
structure Detection where
  id : Nat
  class_id : Int
  class_name : String
  confidence : ℚ
  bbox : List Int
  center : List Int
  relative_position : ℚ × ℚ
  size : List Int
  deriving DecidableEq, Repr

/-- Squared Euclidean distance between a detection's relative position and
the target, i.e. the argument of `np.sqrt` at vision_tracking.py:208. -/
def dist2 (a b : ℚ × ℚ) : ℚ :=
  (a.1 - b.1) ^ 2 + (a.2 - b.2) ^ 2

/-- The `for detection in detections` loop of
`VisionTracker.find_closest_object` (vision_tracking.py:206-212).  The
accumulator is `(min_distance, closest_object)`; `none` stands for the
initial `(float(\x7binf\x7d), None)` pair, which every finite distance beats. -/
def closestLoop (target : ℚ × ℚ) :
    List Detection → Option (ℚ × Detection) → Option (ℚ × Detection)
  | [], best => best
  | d :: rest, best =>
    let dist := dist2 d.relative_position target
    match best with
    | none => closestLoop target rest (some (dist, d))
    | some (m, b) =>
      if dist < m then closestLoop target rest (some (dist, d))
      else closestLoop target rest (some (m, b))

/-- `VisionTracker.find_closest_object` (vision_tracking.py:197-214):
returns `None` on an empty detection list, otherwise the loop's final
`closest_object`.  The Python default argument is `(0.5, 0.5)`. -/
def find_closest_object (detections : List Detection)
    (target : ℚ × ℚ := (1/2, 1/2)) : Option Detection :=
  if detections.isEmpty then none
  else (closestLoop target detections none).map (fun mb => mb.2)

/-- A `publish(topic, text)` call on the MQTT client, as recorded output. -/
def Publish := String × String

/-- `SmartArmBackend.set_mode` (main.py:231-241): if the mode is one of
`auto`/`manual` it is stored, and when the client exists
`MODE <upper-cased mode>` is published on `smartarm/control`; any other
argument does nothing at all. -/
def set_mode (st : SystemStatus) (clientInit : Bool) (mode : String) :
    SystemStatus × List Publish :=
  if mode = "auto" ∨ mode = "manual" then
    ({ st with mode := mode },
     if clientInit then [("smartarm/control", "MODE " ++ mode.toUpper)] else [])
  else
    (st, [])

/-- `SmartArmBackend.manual_servo_control` (main.py:243-253): rejected
(False, no publish) unless `mode == 'manual'`; with the client present it
publishes `SERVO <id> <angle>` and returns True; with the client absent it
returns False.  The status dict is never written. -/
def manual_servo_control (st : SystemStatus) (clientInit : Bool)
    (servo_id angle : Int) : SystemStatus × Bool × List Publish :=
  if st.mode ≠ "manual" then
    (st, false, [])
  else if clientInit then
    (st, true,
     [("smartarm/control", "SERVO " ++ toString servo_id ++ " " ++ toString angle)])
  else
    (st, false, [])

/-- `SmartArmBackend.manual_motor_control` (main.py:255-265), analogous to
the servo path with command `MOTOR <speed>`. -/
def manual_motor_control (st : SystemStatus) (clientInit : Bool)
    (speed : Int) : SystemStatus × Bool × List Publish :=
  if st.mode ≠ "manual" then
    (st, false, [])
  else if clientInit then
    (st, true, [("smartarm/control", "MOTOR " ++ toString speed)])
  else
    (st, false, [])

/-- `SmartArmBackend.emergency_stop` (main.py:267-272): publishes `STOP`
and returns True whenever the client exists, otherwise returns False; no
status field is touched, and the mode is never consulted. -/
def emergency_stop (st : SystemStatus) (clientInit : Bool) :
    SystemStatus × Bool × List Publish :=
  if clientInit then (st, true, [("smartarm/control", "STOP")])
  else (st, false, [])

/-- `SmartArmBackend.move_to_home` (main.py:274-279): publishes `HOME`
and returns True whenever the client exists, otherwise returns False. -/
def move_to_home (st : SystemStatus) (clientInit : Bool) :
    SystemStatus × Bool × List Publish :=
  if clientInit then (st, true, [("smartarm/control", "HOME")])
  else (st, false, [])

/-- A WebSocket client as the broadcast path observes it: an identity and
whether `client.send` succeeds (False models a closed connection whose
send raises `ConnectionClosed`). -/
structure WsClient where
  id : Nat
  ok : Bool
  deriving DecidableEq, Repr

/-- The `for client in self.websocket_clients` loop of
`SmartArmBackend.broadcast_status` (main.py:316-321): a successful send
delivers the message, a failed one adds the client to `disconnected`. -/
def broadcastLoop (msg : String) :
    List WsClient → List (WsClient × String) → List WsClient →
    List (WsClient × String) × List WsClient
  | [], delivered, disconnected => (delivered, disconnected)
  | c :: rest, delivered, disconnected =>
    if c.ok then broadcastLoop msg rest (delivered ++ [(c, msg)]) disconnected
    else broadcastLoop msg rest delivered (disconnected ++ [c])

/-- `SmartArmBackend.broadcast_status` (main.py:307-324): when clients are
registered, send the message to each, then remove the failed ones
(`self.websocket_clients -= disconnected`).  Returns the remaining
registered clients and the list of deliveries made. -/
def broadcast_status (clients : List WsClient) (msg : String) :
    List WsClient × List (WsClient × String) :=
  if clients.isEmpty then (clients, [])
  else
    let (delivered, disconnected) := broadcastLoop msg clients [] []
    (clients.filter (fun c => c ∉ disconnected), delivered)

/-- The backend operations of main.py that write `self.system_status`,
as events of a step relation (used for the reachable-state invariant on
`mode`).  Publish outputs are irrelevant to the stored state and dropped
by `step`. -/
inductive Event where
  | mqttConnect (rc : Int)
  | mqttDisconnect
  | mqttStatusMsg (p : Payload)
  | visionDetection (ts : String) (objs : List Nat)
  | modeChange (clientInit : Bool) (mode : String)
  | startVision
  | stopVision
  | servoCmd (clientInit : Bool) (servo_id angle : Int)
  | motorCmd (clientInit : Bool) (speed : Int)
  | stopCmd (clientInit : Bool)
  | homeCmd (clientInit : Bool)

/-- The status-store effect of each operation: `on_mqtt_connect`
(main.py:172-183), `on_mqtt_disconnect` (main.py:205-208),
`on_mqtt_message`, `on_vision_detection` (main.py:210-216), `set_mode`,
`start_vision_tracking`/`stop_vision_tracking` (main.py:343-353), and the
four command operations (which never write the status). -/
def step (st : SystemStatus) : Event → SystemStatus
  | Event.mqttConnect rc =>
    if rc = 0 then { st with mqtt_connected := true }
    else { st with mqtt_connected := false }
  | Event.mqttDisconnect => { st with mqtt_connected := false }
  | Event.mqttStatusMsg p => on_mqtt_message p st
  | Event.visionDetection ts objs =>
    { st with last_detection := some ⟨ts, objs.length, objs⟩ }
  | Event.modeChange clientInit m => (set_mode st clientInit m).1
  | Event.startVision => { st with vision_active := true }
  | Event.stopVision => { st with vision_active := false }
  | Event.servoCmd clientInit sid a => (manual_servo_control st clientInit sid a).1
  | Event.motorCmd clientInit s => (manual_motor_control st clientInit s).1
  | Event.stopCmd clientInit => (emergency_stop st clientInit).1
  | Event.homeCmd clientInit => (move_to_home st clientInit).1

/-- A state reached from `initStatus` by a finite event trace. -/
def run (evs : List Event) : SystemStatus :=
  evs.foldl step initStatus

/-- The concrete controller status payload of the spec's round-trip
property: `\x7b"servos":[10,20,30,40,50],"distance":12.5,"motor_speed":3\x7d`. -/
def payloadFull : Payload :=
  [("servos", JVal.jarr [10, 20, 30, 40, 50]),
   ("distance", JVal.jnum (25/2)),
   ("motor_speed", JVal.jint 3)]

/-- A prior status whose wire-updatable fields all differ from the
handler's hard-coded defaults. -/
def statusPrior : SystemStatus :=
  { initStatus with
    servo_angles := [10, 20, 30, 40, 50]
    distance_cm := 5
    motor_speed := 2 }

/-- A detection at relative position (0.1, 0.1). -/
def detNear : Detection :=
  ⟨0, 39, "bottle", 9/10, [32, 24, 96, 72], [64, 48], (1/10, 1/10), [64, 48]⟩

/-- A detection at relative position (0.9, 0.9). -/
def detFar : Detection :=
  ⟨1, 41, "cup", 8/10, [544, 408, 608, 456], [576, 432], (9/10, 9/10), [64, 48]⟩

end SmartArm

namespace SmartArm

/-! ## Theorems -/

/-- Claim C7 — `find_closest_object` returns none whenever the current
detection sequence is empty, for every target position. -/
theorem find_closest_object_empty (target : ℚ × ℚ) :
    find_closest_object [] target = none := rfl

/-- Claim C10 — `emergency_stop` and `move_to_home` are not gated by the
operation mode: for every status (hence every mode), each publishes its
fixed command string exactly when the client is initialised and then
returns success, returns failure without publishing otherwise, and leaves
the system status unchanged. -/
theorem stop_home_ungated (st : SystemStatus) (clientInit : Bool) :
    emergency_stop st clientInit =
      (st, clientInit,
       if clientInit then [("smartarm/control", "STOP")] else []) ∧
    move_to_home st clientInit =
      (st, clientInit,
       if clientInit then [("smartarm/control", "HOME")] else []) := by
  cases clientInit <;> simp [emergency_stop, move_to_home]

/-- Claim C3 — `manual_servo_control` returns failure and publishes
nothing when the mode is not `manual` (no state change); in `manual` mode
with the client initialised it publishes exactly `SERVO <id> <angle>`
(for id 2 and angle 45, the string `SERVO 2 45`) and returns success. -/
theorem manual_servo_control_gating :
    (∀ (st : SystemStatus) (clientInit : Bool) (servo_id angle : Int),
       st.mode ≠ "manual" →
       manual_servo_control st clientInit servo_id angle = (st, false, [])) ∧
    (∀ (st : SystemStatus) (servo_id angle : Int),
       st.mode = "manual" →
       manual_servo_control st true servo_id angle =
         (st, true,
          [("smartarm/control",
            "SERVO " ++ toString servo_id ++ " " ++ toString angle)])) ∧
    (∀ st : SystemStatus, st.mode = "manual" →
       manual_servo_control st true 2 45 =
         (st, true, [("smartarm/control", "SERVO 2 45")])) := by
  refine ⟨fun st c i a h => ?_, fun st i a h => ?_, fun st h => ?_⟩ <;>
    simp [manual_servo_control, h]
  rfl

/-- Witness for `manual_servo_control_gating` at mode `auto` (the initial
status) and at mode `manual`, with servo 2 and angle 45. -/
theorem manual_servo_control_gating_witness :
    manual_servo_control initStatus true 2 45 = (initStatus, false, []) ∧
    manual_servo_control { initStatus with mode := "manual" } true 2 45 =
      ({ initStatus with mode := "manual" }, true,
       [("smartarm/control", "SERVO 2 45")]) :=
  ⟨manual_servo_control_gating.1 initStatus true 2 45 (by decide),
   manual_servo_control_gating.2.2 { initStatus with mode := "manual" } rfl⟩

/-- Claim C1 — a status payload carrying all three keys `servos`,
`distance`, `motor_speed` sets `servo_angles`, `distance_cm` and
`motor_speed` to the payload's values and leaves every other status field
unchanged. -/
theorem on_mqtt_message_full_payload (p : Payload) (st : SystemStatus)
    (s : List Int) (q : ℚ) (m : Int)
    (hs : pget p "servos" = some (JVal.jarr s))
    (hd : pget p "distance" = some (JVal.jnum q))
    (hm : pget p "motor_speed" = some (JVal.jint m)) :
    (on_mqtt_message p st).servo_angles = s ∧
    (on_mqtt_message p st).distance_cm = q ∧
    (on_mqtt_message p st).motor_speed = m ∧
    (on_mqtt_message p st).mode = st.mode ∧
    (on_mqtt_message p st).vision_active = st.vision_active ∧
    (on_mqtt_message p st).mqtt_connected = st.mqtt_connected ∧
    (on_mqtt_message p st).last_detection = st.last_detection ∧
    (on_mqtt_message p st).grab_count = st.grab_count ∧
    (on_mqtt_message p st).error_message = st.error_message := by
  simp [on_mqtt_message, hs, hd, hm]

/-- Witness for `on_mqtt_message_full_payload` at the spec's round-trip
payload applied to the initial status. -/
theorem on_mqtt_message_full_payload_witness :
    (on_mqtt_message payloadFull initStatus).servo_angles =
      [10, 20, 30, 40, 50] ∧
    (on_mqtt_message payloadFull initStatus).mode = initStatus.mode := by
  have h := on_mqtt_message_full_payload payloadFull initStatus
    [10, 20, 30, 40, 50] (25/2) 3 rfl rfl rfl
  exact ⟨h.1, h.2.2.2.1⟩

/-- Counterexample to claim C5 as stated: applying a payload that omits
all three keys to a status whose fields differ from the defaults does not
retain the prior values — every wire-updatable field is overwritten. -/
theorem omitted_keys_counterexample :
    statusPrior.servo_angles = [10, 20, 30, 40, 50] ∧
    (on_mqtt_message [] statusPrior).servo_angles = [90, 90, 90, 90, 90] ∧
    (on_mqtt_message [] statusPrior).servo_angles ≠ statusPrior.servo_angles ∧
    (on_mqtt_message [] statusPrior).distance_cm ≠ statusPrior.distance_cm ∧
    (on_mqtt_message [] statusPrior).motor_speed ≠ statusPrior.motor_speed := by
  decide

/-- Claim C5 as amended — a status message that omits one of the keys
`servos`, `distance`, `motor_speed` resets the corresponding field to
the handler's hard-coded default (`[90,90,90,90,90]`, `0.0`, `0`
respectively) instead of retaining the prior value. -/
theorem on_mqtt_message_omitted_defaults (p : Payload) (st : SystemStatus) :
    (pget p "servos" = none →
       (on_mqtt_message p st).servo_angles = [90, 90, 90, 90, 90]) ∧
    (pget p "distance" = none → (on_mqtt_message p st).distance_cm = 0) ∧
    (pget p "motor_speed" = none → (on_mqtt_message p st).motor_speed = 0) := by
  refine ⟨fun h => ?_, fun h => ?_, fun h => ?_⟩ <;>
    simp [on_mqtt_message, h]

/-- Witness for `on_mqtt_message_omitted_defaults` at the empty payload
applied to `statusPrior`. -/
theorem on_mqtt_message_omitted_defaults_witness :
    (on_mqtt_message [] statusPrior).servo_angles = [90, 90, 90, 90, 90] ∧
    (on_mqtt_message [] statusPrior).distance_cm = 0 :=
  ⟨(on_mqtt_message_omitted_defaults [] statusPrior).1 rfl,
   (on_mqtt_message_omitted_defaults [] statusPrior).2.1 rfl⟩

/-- Claim C6 — a payload field whose name is none of `servos`,
`distance`, `motor_speed` is silently ignored: the handler neither faults
(it is total) nor produces a different status than for the same payload
without that field, and the status record cannot gain a field. -/
theorem on_mqtt_message_unknown_key (p : Payload) (st : SystemStatus)
    (k : String) (v : JVal)
    (h1 : k ≠ "servos") (h2 : k ≠ "distance") (h3 : k ≠ "motor_speed") :
    on_mqtt_message ((k, v) :: p) st = on_mqtt_message p st := by
  simp [on_mqtt_message, pget, h1, h2, h3]

/-- Witness for `on_mqtt_message_unknown_key` at the unknown key
`grab_strength`. -/
theorem on_mqtt_message_unknown_key_witness :
    on_mqtt_message [("grab_strength", JVal.jint 7)] initStatus =
      on_mqtt_message [] initStatus :=
  on_mqtt_message_unknown_key [] initStatus "grab_strength" (JVal.jint 7)
    (by decide) (by decide) (by decide)

/-- Unfolding of the broadcast loop: deliveries are the successful clients
in order, the disconnected set is the failing clients in order. -/
theorem broadcastLoop_eq (msg : String) (cs : List WsClient)
    (del : List (WsClient × String)) (dis : List WsClient) :
    broadcastLoop msg cs del dis =
      (del ++ (cs.filter (fun c => c.ok)).map (fun c => (c, msg)),
       dis ++ cs.filter (fun c => !c.ok)) := by
  induction cs generalizing del dis with
  | nil => simp [broadcastLoop]
  | cons c rest ih =>
    by_cases h : c.ok
    · simp [broadcastLoop, h, ih]
    · simp [broadcastLoop, h, ih]

/-- Removing the disconnected clients from the registered set keeps
exactly the clients whose send succeeded. -/
theorem filter_not_mem_disconnected (clients : List WsClient) :
    clients.filter (fun c => c ∉ clients.filter (fun c => !c.ok)) =
      clients.filter (fun c => c.ok) := by
  apply List.filter_congr
  intro x hx
  simp [List.mem_filter, hx]

/-- Closed form of `broadcast_status`: the remaining registered clients
are those whose send succeeded, and exactly they receive the message. -/
theorem broadcast_status_eq (clients : List WsClient) (msg : String) :
    broadcast_status clients msg =
      (clients.filter (fun c => c.ok),
       (clients.filter (fun c => c.ok)).map (fun c => (c, msg))) := by
  rcases clients with _ | ⟨c, rest⟩
  · simp [broadcast_status]
  · rw [broadcast_status]
    simp only [List.isEmpty_cons, Bool.false_eq_true, if_false, broadcastLoop_eq,
      List.nil_append]
    rw [filter_not_mem_disconnected]

/-- The two filters by a predicate and its negation split a list's
length. -/
theorem length_filter_ok (cs : List WsClient) :
    (cs.filter (fun c => c.ok)).length + (cs.filter (fun c => !c.ok)).length =
      cs.length := by
  induction cs with
  | nil => rfl
  | cons c rest ih =>
    by_cases h : c.ok <;> simp [h, ih] <;> omega

/-- Claim C4 — in a broadcast round over three registered subscribers of
which exactly one fails to accept delivery, afterwards exactly the two
succeeding subscribers remain registered, and every succeeding subscriber
(in particular both remaining ones) received the message: one failing
recipient never prevents delivery to the rest. -/
theorem broadcast_status_one_failure (cs : List WsClient) (msg : String)
    (hlen : cs.length = 3) (hfail : (cs.filter (fun c => !c.ok)).length = 1) :
    (broadcast_status cs msg).1 = cs.filter (fun c => c.ok) ∧
    (broadcast_status cs msg).1.length = 2 ∧
    (∀ c ∈ cs, c.ok = true → (c, msg) ∈ (broadcast_status cs msg).2) := by
  rw [broadcast_status_eq]
  refine ⟨rfl, ?_, ?_⟩
  · show (cs.filter (fun c => c.ok)).length = 2
    have h := length_filter_ok cs
    omega
  · intro c hc hok
    show (c, msg) ∈ (cs.filter (fun c => c.ok)).map (fun c => (c, msg))
    simp only [List.mem_map, List.mem_filter]
    exact ⟨c, ⟨hc, hok⟩, rfl⟩

/-- Witness for `broadcast_status_one_failure`: subscribers 1 and 2
accept, subscriber 3 fails. -/
theorem broadcast_status_one_failure_witness :
    (broadcast_status [⟨1, true⟩, ⟨2, true⟩, ⟨3, false⟩] "status").1.length = 2 ∧
    ((⟨1, true⟩ : WsClient), "status") ∈
      (broadcast_status [⟨1, true⟩, ⟨2, true⟩, ⟨3, false⟩] "status").2 := by
  have h := broadcast_status_one_failure
    [⟨1, true⟩, ⟨2, true⟩, ⟨3, false⟩] "status" rfl (by decide)
  exact ⟨h.2.1, h.2.2 ⟨1, true⟩ (by decide) rfl⟩

/-- The servo command never writes the status dict. -/
theorem manual_servo_control_status (st : SystemStatus) (c : Bool)
    (i a : Int) : (manual_servo_control st c i a).1 = st := by
  unfold manual_servo_control
  split
  · rfl
  · split <;> rfl

/-- The motor command never writes the status dict. -/
theorem manual_motor_control_status (st : SystemStatus) (c : Bool)
    (s : Int) : (manual_motor_control st c s).1 = st := by
  unfold manual_motor_control
  split
  · rfl
  · split <;> rfl

/-- `emergency_stop` never writes the status dict. -/
theorem emergency_stop_status (st : SystemStatus) (c : Bool) :
    (emergency_stop st c).1 = st := by
  unfold emergency_stop
  split <;> rfl

/-- `move_to_home` never writes the status dict. -/
theorem move_to_home_status (st : SystemStatus) (c : Bool) :
    (move_to_home st c).1 = st := by
  unfold move_to_home
  split <;> rfl

/-- `set_mode` with an argument outside \x7bauto, manual\x7d changes
nothing and publishes nothing. -/
theorem set_mode_invalid (st : SystemStatus) (c : Bool) (m : String)
    (h1 : m ≠ "auto") (h2 : m ≠ "manual") : set_mode st c m = (st, []) := by
  simp [set_mode, h1, h2]

/-- After `set_mode` the stored mode is the old one or a member of
\x7bauto, manual\x7d. -/
theorem set_mode_mode (st : SystemStatus) (c : Bool) (m : String) :
    (set_mode st c m).1.mode = st.mode ∨
    (set_mode st c m).1.mode = "auto" ∨ (set_mode st c m).1.mode = "manual" := by
  unfold set_mode
  split
  · rename_i h
    rcases h with h | h <;> simp [h]
  · left; rfl

/-- Every non-`set_mode` status-writing operation leaves the mode field
untouched. -/
theorem step_mode_eq_of_ne (st : SystemStatus) (e : Event)
    (h : ∀ c m, e ≠ Event.modeChange c m) : (step st e).mode = st.mode := by
  cases e with
  | mqttConnect rc => by_cases hrc : rc = 0 <;> simp [step, hrc]
  | mqttDisconnect => rfl
  | mqttStatusMsg p => rfl
  | visionDetection ts objs => rfl
  | modeChange c m => exact absurd rfl (h c m)
  | startVision => rfl
  | stopVision => rfl
  | servoCmd c i a => simp [step, manual_servo_control_status]
  | motorCmd c s => simp [step, manual_motor_control_status]
  | stopCmd c => simp [step, emergency_stop_status]
  | homeCmd c => simp [step, move_to_home_status]

/-- One step preserves mode validity. -/
theorem step_mode_valid (st : SystemStatus) (e : Event)
    (h : st.mode = "auto" ∨ st.mode = "manual") :
    (step st e).mode = "auto" ∨ (step st e).mode = "manual" := by
  cases e with
  | modeChange c m =>
    rcases set_mode_mode st c m with h1 | h1 | h1
    · rw [show step st (Event.modeChange c m) = (set_mode st c m).1 from rfl, h1]
      exact h
    · exact Or.inl (by rw [show step st (Event.modeChange c m) = (set_mode st c m).1 from rfl, h1])
    · exact Or.inr (by rw [show step st (Event.modeChange c m) = (set_mode st c m).1 from rfl, h1])
  | mqttConnect rc =>
    rw [step_mode_eq_of_ne st (Event.mqttConnect rc) (fun c m h => by cases h)]
    exact h
  | mqttDisconnect =>
    rw [step_mode_eq_of_ne st Event.mqttDisconnect (fun c m h => by cases h)]
    exact h
  | mqttStatusMsg p =>
    rw [step_mode_eq_of_ne st (Event.mqttStatusMsg p) (fun c m h => by cases h)]
    exact h
  | visionDetection ts objs =>
    rw [step_mode_eq_of_ne st (Event.visionDetection ts objs) (fun c m h => by cases h)]
    exact h
  | startVision =>
    rw [step_mode_eq_of_ne st Event.startVision (fun c m h => by cases h)]
    exact h
  | stopVision =>
    rw [step_mode_eq_of_ne st Event.stopVision (fun c m h => by cases h)]
    exact h
  | servoCmd c i a =>
    rw [step_mode_eq_of_ne st (Event.servoCmd c i a) (fun c m h => by cases h)]
    exact h
  | motorCmd c s =>
    rw [step_mode_eq_of_ne st (Event.motorCmd c s) (fun c m h => by cases h)]
    exact h
  | stopCmd c =>
    rw [step_mode_eq_of_ne st (Event.stopCmd c) (fun c m h => by cases h)]
    exact h
  | homeCmd c =>
    rw [step_mode_eq_of_ne st (Event.homeCmd c) (fun c m h => by cases h)]
    exact h

/-- Mode validity is preserved along any event trace. -/
theorem foldl_mode_valid (evs : List Event) : ∀ st : SystemStatus,
    (st.mode = "auto" ∨ st.mode = "manual") →
    ((evs.foldl step st).mode = "auto" ∨ (evs.foldl step st).mode = "manual") := by
  induction evs with
  | nil => intro st h; simpa using h
  | cons e rest ih => intro st h; exact ih _ (step_mode_valid st e h)

/-- Claim C9 — the mode field is always `auto` or `manual` in every
reachable state: it starts as `auto`, `set_mode` stores only values in
\x7bauto, manual\x7d and is a complete no-op (no state change, no publish)
on any other argument, and no other status-writing operation touches the
mode field. -/
theorem mode_invariant :
    (∀ evs : List Event,
       (run evs).mode = "auto" ∨ (run evs).mode = "manual") ∧
    initStatus.mode = "auto" ∧
    (∀ (st : SystemStatus) (clientInit : Bool) (m : String),
       m ≠ "auto" → m ≠ "manual" → set_mode st clientInit m = (st, [])) ∧
    (∀ (st : SystemStatus) (e : Event),
       (∀ c m, e ≠ Event.modeChange c m) → (step st e).mode = st.mode) :=
  ⟨fun evs => foldl_mode_valid evs initStatus (Or.inl rfl), rfl,
   set_mode_invalid, step_mode_eq_of_ne⟩

/-- Witness for `mode_invariant`: a concrete trace, a rejected mode value,
and a concrete non-mode event. -/
theorem mode_invariant_witness :
    ((run [Event.startVision]).mode = "auto" ∨
       (run [Event.startVision]).mode = "manual") ∧
    set_mode initStatus true "turbo" = (initStatus, []) ∧
    (step initStatus Event.mqttDisconnect).mode = initStatus.mode :=
  ⟨mode_invariant.1 [Event.startVision],
   mode_invariant.2.2.1 initStatus true "turbo" (by decide) (by decide),
   mode_invariant.2.2.2 initStatus Event.mqttDisconnect (fun c m h => by cases h)⟩

/-- Scan invariant for `closestLoop`: starting from accumulator `(m, b)`,
the loop either keeps the accumulator (when no list entry is strictly
closer than `m`) or returns the first entry that strictly beats `m` and
every entry before it, together with its distance. -/
theorem closestLoop_invariant (target : ℚ × ℚ) :
    ∀ (ds : List Detection) (m : ℚ) (b : Detection),
    (closestLoop target ds (some (m, b)) = some (m, b) ∧
       ∀ d ∈ ds, m ≤ dist2 d.relative_position target) ∨
    (∃ i : Fin ds.length,
       closestLoop target ds (some (m, b)) =
         some (dist2 (ds.get i).relative_position target, ds.get i) ∧
       dist2 (ds.get i).relative_position target < m ∧
       (∀ d ∈ ds,
          dist2 (ds.get i).relative_position target ≤
            dist2 d.relative_position target) ∧
       (∀ j : Fin ds.length, (j : Nat) < (i : Nat) →
          dist2 (ds.get i).relative_position target <
            dist2 (ds.get j).relative_position target)) := by
  intro ds
  induction ds with
  | nil =>
    intro m b
    left
    exact ⟨rfl, by simp⟩
  | cons d rest ih =>
    intro m b
    by_cases hlt : dist2 d.relative_position target < m
    · have hstep : closestLoop target (d :: rest) (some (m, b)) =
          closestLoop target rest (some (dist2 d.relative_position target, d)) := by
        simp [closestLoop, hlt]
      rcases ih (dist2 d.relative_position target) d with
        ⟨heq, hall⟩ | ⟨i, heq, hlt2, hall, hbef⟩
      · right
        refine ⟨⟨0, Nat.succ_pos _⟩, ?_, ?_, ?_, ?_⟩
        · rw [hstep]; exact heq
        · exact hlt
        · intro x hx
          rcases List.mem_cons.mp hx with rfl | hx
          · exact le_refl _
          · exact hall x hx
        · intro j hj
          exact absurd hj (Nat.not_lt_zero _)
      · right
        refine ⟨⟨(i : Nat) + 1, Nat.succ_lt_succ i.isLt⟩, ?_, ?_, ?_, ?_⟩
        · rw [hstep]; exact heq
        · exact lt_trans hlt2 hlt
        · intro x hx
          rcases List.mem_cons.mp hx with rfl | hx
          · exact le_of_lt hlt2
          · exact hall x hx
        · intro j hj
          rcases j with ⟨jv, hjlt⟩
          cases jv with
          | zero => exact hlt2
          | succ k =>
            exact hbef ⟨k, Nat.lt_of_succ_lt_succ hjlt⟩ (Nat.lt_of_succ_lt_succ hj)
    · have hstep : closestLoop target (d :: rest) (some (m, b)) =
          closestLoop target rest (some (m, b)) := by
        simp [closestLoop, hlt]
      have hge : m ≤ dist2 d.relative_position target := not_lt.mp hlt
      rcases ih m b with ⟨heq, hall⟩ | ⟨i, heq, hlt2, hall, hbef⟩
      · left
        refine ⟨by rw [hstep]; exact heq, ?_⟩
        intro x hx
        rcases List.mem_cons.mp hx with rfl | hx
        · exact hge
        · exact hall x hx
      · right
        refine ⟨⟨(i : Nat) + 1, Nat.succ_lt_succ i.isLt⟩, ?_, ?_, ?_, ?_⟩
        · rw [hstep]; exact heq
        · exact hlt2
        · intro x hx
          rcases List.mem_cons.mp hx with rfl | hx
          · exact le_of_lt (lt_of_lt_of_le hlt2 hge)
          · exact hall x hx
        · intro j hj
          rcases j with ⟨jv, hjlt⟩
          cases jv with
          | zero => exact lt_of_lt_of_le hlt2 hge
          | succ k =>
            exact hbef ⟨k, Nat.lt_of_succ_lt_succ hjlt⟩ (Nat.lt_of_succ_lt_succ hj)

/-- Claim C2 — on a non-empty detection list `find_closest_object`
returns the detection with minimal (squared, equivalently Euclidean)
distance to the target, and on exact ties the earliest in sequence order
(every strictly earlier detection is strictly farther, because the scan
uses a strict less-than comparison); the default target is `(0.5, 0.5)`;
and for detections at relative positions `(0.1, 0.1)` and `(0.9, 0.9)`
with target `(0.5, 0.5)` the first is returned. -/
theorem find_closest_object_min :
    (∀ (ds : List Detection) (target : ℚ × ℚ), ds ≠ [] →
       ∃ i : Fin ds.length,
         find_closest_object ds target = some (ds.get i) ∧
         (∀ d ∈ ds,
            dist2 (ds.get i).relative_position target ≤
              dist2 d.relative_position target) ∧
         (∀ j : Fin ds.length, (j : Nat) < (i : Nat) →
            dist2 (ds.get i).relative_position target <
              dist2 (ds.get j).relative_position target)) ∧
    (∀ ds : List Detection,
       find_closest_object ds = find_closest_object ds (1/2, 1/2)) ∧
    (∀ d1 d2 : Detection, d1.relative_position = (1/10, 1/10) →
       d2.relative_position = (9/10, 9/10) →
       find_closest_object [d1, d2] (1/2, 1/2) = some d1) := by
  refine ⟨?_, fun ds => rfl, ?_⟩
  · intro ds target hne
    rcases ds with _ | ⟨d, rest⟩
    · exact absurd rfl hne
    · have hrun : find_closest_object (d :: rest) target =
          (closestLoop target rest
            (some (dist2 d.relative_position target, d))).map
            (fun mb => mb.2) := rfl
      rcases closestLoop_invariant target rest
        (dist2 d.relative_position target) d with
        ⟨heq, hall⟩ | ⟨i, heq, hlt2, hall, hbef⟩
      · refine ⟨⟨0, Nat.succ_pos _⟩, ?_, ?_, ?_⟩
        · rw [hrun, heq]; rfl
        · intro x hx
          rcases List.mem_cons.mp hx with rfl | hx
          · exact le_refl _
          · exact hall x hx
        · intro j hj
          exact absurd hj (Nat.not_lt_zero _)
      · refine ⟨⟨(i : Nat) + 1, Nat.succ_lt_succ i.isLt⟩, ?_, ?_, ?_⟩
        · rw [hrun, heq]; rfl
        · intro x hx
          rcases List.mem_cons.mp hx with rfl | hx
          · exact le_of_lt hlt2
          · exact hall x hx
        · intro j hj
          rcases j with ⟨jv, hjlt⟩
          cases jv with
          | zero => exact hlt2
          | succ k =>
            exact hbef ⟨k, Nat.lt_of_succ_lt_succ hjlt⟩ (Nat.lt_of_succ_lt_succ hj)
  · intro d1 d2 h1 h2
    have hd : ¬ (dist2 d2.relative_position (1/2, 1/2) <
        dist2 d1.relative_position (1/2, 1/2)) := by
      rw [h1, h2]
      norm_num [dist2]
    show (closestLoop (1/2, 1/2) [d1, d2] none).map (fun mb => mb.2) = some d1
    rw [show closestLoop (1/2, 1/2) [d1, d2] none =
        (if dist2 d2.relative_position (1/2, 1/2) <
            dist2 d1.relative_position (1/2, 1/2)
         then some (dist2 d2.relative_position (1/2, 1/2), d2)
         else some (dist2 d1.relative_position (1/2, 1/2), d1)) from rfl]
    rw [if_neg hd]
    rfl

/-- Witness for `find_closest_object_min`: the two detections of the
spec's tie example, the first one at `(0.1, 0.1)` winning the exact tie. -/
theorem find_closest_object_min_witness :
    find_closest_object [detNear, detFar] (1/2, 1/2) = some detNear :=
  find_closest_object_min.2.2 detNear detFar rfl rfl

end SmartArm
